import Mathlib

/-!
Verification development for the device-attribute access layer:
a shallow embedding of src/driver.rs (device discovery and the per-Driver
attribute-handle cache) and src/wait.rs (the change-notified wait loop),
with theorems checking the specification's claims against it.
-/

namespace Ev3Spec

/-- Errors surfaced by the layer (the crate's Ev3Error as used by
src/driver.rs): discovery reports NotFound or MultipleMatches; other
failures (I/O, decode, internal) are carried with a message. -/
inductive Ev3Error where
  | NotFound : Ev3Error
  | MultipleMatches : Ev3Error
  | InternalError : String → Ev3Error
  deriving DecidableEq, Repr

/-- Helper for Rust String::contains: does the character list start with the
pattern list. -/
def strStartsWith : List Char → List Char → Bool
  | _, [] => true
  | [], _ :: _ => false
  | a :: s, b :: t => a == b && strStartsWith s t

/-- Helper for Rust String::contains: does the pattern occur somewhere in the
haystack character list. -/
def strContainsAux (pat : List Char) : List Char → Bool
  | [] => strStartsWith [] pat
  | c :: t => strStartsWith (c :: t) pat || strContainsAux pat t

/-- Rust String::contains(needle): substring containment, haystack first. -/
def strContains (hay pat : String) : Bool :=
  strContainsAux pat.data hay.data

/-- One candidate device directory as discovery sees it: the directory-entry
name (path?.file_name().to_str().or_err()?) and the results of opening and
reading its address and driver_name attribute files
(Attribute::new(..)? followed by get::<String>()?), each of which may fail
and propagate. -/
structure CandidateDev where
  fileName : Except Ev3Error String
  address : Except Ev3Error String
  driverName : Except Ev3Error String

/-- Driver::find_name_by_port from src/driver.rs: scan the class directory in
enumeration order; a candidate is accepted when the port address is contained
in its address attribute; the first accepted candidate's name is returned,
and NotFound when the scan finishes with none. -/
def find_name_by_port (dir : List CandidateDev) (port_address : String) :
    Except Ev3Error String :=
  match dir with
  | [] => Except.error Ev3Error.NotFound
  | c :: rest =>
    match c.fileName with
    | Except.error e => Except.error e
    | Except.ok name =>
      match c.address with
      | Except.error e => Except.error e
      | Except.ok addr =>
        if strContains addr port_address then Except.ok name
        else find_name_by_port rest port_address

/-- Driver::find_name_by_port_and_driver from src/driver.rs: like
find_name_by_port, but when the address matches, the candidate's driver_name
attribute is read and must equal the requested driver name exactly; otherwise
the scan continues. -/
def find_name_by_port_and_driver (dir : List CandidateDev)
    (port_address driver_name : String) : Except Ev3Error String :=
  match dir with
  | [] => Except.error Ev3Error.NotFound
  | c :: rest =>
    match c.fileName with
    | Except.error e => Except.error e
    | Except.ok name =>
      match c.address with
      | Except.error e => Except.error e
      | Except.ok addr =>
        if strContains addr port_address then
          match c.driverName with
          | Except.error e => Except.error e
          | Except.ok drv =>
            if drv == driver_name then Except.ok name
            else find_name_by_port_and_driver rest port_address driver_name
        else find_name_by_port_and_driver rest port_address driver_name

/-- Driver::find_names_by_driver from src/driver.rs: collect, in enumeration
order, the names of all candidates whose driver_name attribute equals the
requested driver name. -/
def find_names_by_driver (dir : List CandidateDev) (driver_name : String) :
    Except Ev3Error (List String) :=
  match dir with
  | [] => Except.ok []
  | c :: rest =>
    match c.fileName with
    | Except.error e => Except.error e
    | Except.ok name =>
      match c.driverName with
      | Except.error e => Except.error e
      | Except.ok drv =>
        match find_names_by_driver rest driver_name with
        | Except.error e => Except.error e
        | Except.ok found =>
          Except.ok (if drv == driver_name then name :: found else found)

/-- Driver::find_name_by_driver from src/driver.rs: dispatch on the length of
the list returned by find_names_by_driver (0 gives NotFound, 1 gives that
name, 2 or more gives MultipleMatches). -/
def find_name_by_driver (dir : List CandidateDev) (driver_name : String) :
    Except Ev3Error String :=
  match find_names_by_driver dir driver_name with
  | Except.error e => Except.error e
  | Except.ok names =>
    match names with
    | [] => Except.error Ev3Error.NotFound
    | [n] => Except.ok n
    | _ => Except.error Ev3Error.MultipleMatches

/-- A candidate device all of whose reads succeed, built from a
(name, address, driver_name) triple of attribute values. -/
def okCand (t : String × String × String) : CandidateDev :=
  ⟨Except.ok t.1, Except.ok t.2.1, Except.ok t.2.2⟩

/-- Modelled from the spec: the external Attribute handle (the collaborator
consumed by src/driver.rs, not itself under src/) is identified by its
(class, device, attribute) triple and refers to one attribute file path. -/
structure Attribute where
  className : String
  deviceName : String
  attributeName : String
  deriving DecidableEq, Repr

/-- The root driver path from src/driver.rs. -/
def ROOT_PATH : String := "/sys/class/"

/-- The underlying attribute file path an Attribute handle refers to. -/
def Attribute.path (a : Attribute) : String :=
  ROOT_PATH ++ a.className ++ "/" ++ a.deviceName ++ "/" ++ a.attributeName

/-- The filesystem environment for attribute construction: whether the
attribute file for a (class, device, attribute) triple exists, i.e. whether
Attribute::new succeeds. -/
def FsEnv : Type := String → String → String → Bool

/-- Modelled from the spec: Attribute::new(class, device, attribute) yields a
handle when the attribute file exists and fails otherwise. -/
def Attribute.new (fs : FsEnv) (class_name device_name attribute_name : String) :
    Except Ev3Error Attribute :=
  if fs class_name device_name attribute_name then
    Except.ok ⟨class_name, device_name, attribute_name⟩
  else
    Except.error (Ev3Error.InternalError "Attribute does not exist")

/-- The Driver of src/driver.rs: the class name, the device name, and the
RefCell-held HashMap cache of attribute handles, embedded as an association
list keyed by attribute name. -/
structure Driver where
  class_name : String
  name : String
  attributes : List (String × Attribute)

/-- Driver::new from src/driver.rs: store both strings, empty cache. -/
def Driver.new (class_name name : String) : Driver :=
  ⟨class_name, name, []⟩

/-- Driver::get_attribute from src/driver.rs, instrumented: if the attribute
name is not a key of the cache, attempt Attribute::new and insert on success
(a failure is swallowed and inserts nothing); then look the name up in the
(possibly updated) cache, where a miss is the fatal expect panic, modelled as
none. The first component records whether Attribute::new was invoked; the
interior-mutable cache update is returned as the new Driver state. -/
def Driver.get_attribute_core (d : Driver) (fs : FsEnv) (attribute_name : String) :
    Bool × Option Attribute × Driver :=
  let attributes := d.attributes
  if (attributes.lookup attribute_name).isSome then
    (false, attributes.lookup attribute_name, d)
  else
    match Attribute.new fs d.class_name d.name attribute_name with
    | Except.ok v =>
      let attributes' := (attribute_name, v) :: attributes
      (true, attributes'.lookup attribute_name, ⟨d.class_name, d.name, attributes'⟩)
    | Except.error _ =>
      (true, attributes.lookup attribute_name, d)

/-- Driver::get_attribute without the instrumentation bit: the returned handle
(none models the expect panic) and the updated Driver state. -/
def Driver.get_attribute (d : Driver) (fs : FsEnv) (attribute_name : String) :
    Option Attribute × Driver :=
  ((d.get_attribute_core fs attribute_name).2.1,
   (d.get_attribute_core fs attribute_name).2.2)

/-- The Clone impl for Driver from src/driver.rs: same class name and device
name, fresh empty cache. -/
def Driver.clone (d : Driver) : Driver :=
  ⟨d.class_name, d.name, []⟩

/-- Duration::as_millis for a duration held as a count of nanoseconds: whole
milliseconds, rounded down. -/
def durMillis (nanos : Nat) : Nat := nanos / 1000000

/-- The Rust cast (as i32) applied to a nonnegative millisecond count:
truncate to the low 32 bits and reinterpret in two's complement. -/
def wrap32 (n : Nat) : Int :=
  if n % 4294967296 < 2147483648 then ((n % 4294967296 : Nat) : Int)
  else ((n % 4294967296 : Nat) : Int) - 4294967296

/-- The environment a run of wait observes: the result of the k-th call to
cond() (call 0 is the entry check), and the value of start.elapsed() in
nanoseconds measured at loop iteration i. -/
structure WaitEnv where
  cond : Nat → Bool
  elapsed : Nat → Nat

/-- Observable events of a run of wait: a cond() evaluation with its result,
a monotonic-clock access (Instant::now or start.elapsed), and a
change-notification call (wait_file_changes, i.e. epoll_wait) on a file
descriptor with the i32 timeout passed to it. -/
inductive WEvent where
  | condCall : Bool → WEvent
  | clockRead : WEvent
  | epollCall : Int → Int → WEvent
  deriving DecidableEq, Repr

/-- The loop of wait from src/wait.rs, fuel-indexed: arguments are the
remaining fuel, the iteration index i, and the current value of the mutable
variable t (the per-iteration timeout source). Each iteration calls
wait_file_changes with t converted by as_millis and the i32 cast (or -1 when
t is None), then, when a total timeout was supplied, reads the clock and
returns false if the total has expired, else updates t to the remaining
budget; finally it evaluates cond() and returns true or loops. The result is
none when fuel runs out (the run was cut short), and the trace of events is
returned alongside. -/
def waitLoop (fd : Int) (env : WaitEnv) (timeout : Option Nat) :
    Nat → Nat → Option Nat → Option Bool × List WEvent
  | 0, _, _ => (none, [])
  | fuel + 1, i, t =>
    let wt : Int :=
      match t with
      | some duration => wrap32 (durMillis duration)
      | none => -1
    match timeout with
    | some duration =>
      let elapsed := env.elapsed i
      if duration ≤ elapsed then
        (some false, [WEvent.epollCall fd wt, WEvent.clockRead])
      else
        if env.cond (i + 1) then
          (some true, [WEvent.epollCall fd wt, WEvent.clockRead, WEvent.condCall true])
        else
          let r := waitLoop fd env timeout fuel (i + 1) (some (duration - elapsed))
          (r.1, WEvent.epollCall fd wt :: WEvent.clockRead :: WEvent.condCall false :: r.2)
    | none =>
      if env.cond (i + 1) then
        (some true, [WEvent.epollCall fd wt, WEvent.condCall true])
      else
        let r := waitLoop fd env timeout fuel (i + 1) none
        (r.1, WEvent.epollCall fd wt :: WEvent.condCall false :: r.2)

/-- wait from src/wait.rs: evaluate cond() once up front and return true at
once when it holds; otherwise read the clock (start = Instant::now()),
initialize t to the caller's timeout and run the loop. -/
def wait (fd : Int) (env : WaitEnv) (timeout : Option Nat) (fuel : Nat) :
    Option Bool × List WEvent :=
  if env.cond 0 then
    (some true, [WEvent.condCall true])
  else
    let r := waitLoop fd env timeout fuel 0 timeout
    (r.1, WEvent.condCall false :: WEvent.clockRead :: r.2)

/-- The timeouts passed to the change-notification calls of a trace, in
order. -/
def epollTimeouts : List WEvent → List Int
  | [] => []
  | WEvent.epollCall _ t :: r => t :: epollTimeouts r
  | WEvent.condCall _ :: r => epollTimeouts r
  | WEvent.clockRead :: r => epollTimeouts r

/-- The results of the cond() evaluations of a trace, in order. -/
def condResults : List WEvent → List Bool
  | [] => []
  | WEvent.condCall b :: r => b :: condResults r
  | WEvent.epollCall _ _ :: r => condResults r
  | WEvent.clockRead :: r => condResults r

/-- The number of monotonic-clock accesses of a trace. -/
def clockReads : List WEvent → Nat
  | [] => 0
  | WEvent.clockRead :: r => clockReads r + 1
  | WEvent.condCall _ :: r => clockReads r
  | WEvent.epollCall _ _ :: r => clockReads r

/-- The remaining budget the loop's variable t holds at iteration i of a run
with total timeout d: d itself at iteration 0, and d minus the elapsed time
measured at the previous iteration afterwards (Duration subtraction cannot
underflow there because the loop has just checked elapsed < d). -/
def remBudget (env : WaitEnv) (d : Nat) : Nat → Nat
  | 0 => d
  | i + 1 => d - env.elapsed i

/-- A character list starts with the pattern exactly when it is the pattern
followed by some tail. -/
theorem strStartsWith_iff (p l : List Char) :
    strStartsWith l p = true ↔ ∃ t, l = p ++ t := by
  induction p generalizing l with
  | nil => simp [strStartsWith]
  | cons b bs ih =>
    cases l with
    | nil => simp [strStartsWith]
    | cons a as =>
      simp only [strStartsWith, Bool.and_eq_true, beq_iff_eq, ih, List.cons_append,
        List.cons.injEq]
      constructor
      · rintro ⟨hab, t, ht⟩
        exact ⟨t, hab, ht⟩
      · rintro ⟨t, hab, ht⟩
        exact ⟨hab, t, ht⟩

/-- The auxiliary scan finds the pattern exactly when the haystack decomposes
around it. -/
theorem strContainsAux_iff (p l : List Char) :
    strContainsAux p l = true ↔ ∃ pre post, l = pre ++ p ++ post := by
  induction l with
  | nil =>
    simp only [strContainsAux, strStartsWith_iff]
    constructor
    · rintro ⟨t, ht⟩
      exact ⟨[], t, by simpa using ht⟩
    · rintro ⟨pre, post, h⟩
      have h' : pre = [] ∧ p = [] ∧ post = [] := by simpa using h.symm
      exact ⟨[], by simp [h'.2.1]⟩
  | cons c t ih =>
    simp only [strContainsAux, Bool.or_eq_true, strStartsWith_iff, ih]
    constructor
    · rintro (⟨s, hs⟩ | ⟨pre, post, h⟩)
      · exact ⟨[], s, by simpa using hs⟩
      · exact ⟨c :: pre, post, by simp [h]⟩
    · rintro ⟨pre, post, h⟩
      cases pre with
      | nil => exact Or.inl ⟨post, by simpa using h⟩
      | cons x xs =>
        right
        refine ⟨xs, post, ?_⟩
        have h2 := h
        simp only [List.cons_append, List.cons.injEq] at h2
        exact h2.2

/-- Rust String::contains is substring containment of the character data. -/
theorem strContains_iff (hay pat : String) :
    strContains hay pat = true ↔ ∃ pre post, hay.data = pre ++ pat.data ++ post :=
  strContainsAux_iff pat.data hay.data

/-- Over candidates whose reads all succeed, find_name_by_port returns the
name of the first candidate whose address contains the port address, and
NotFound when there is none. -/
theorem find_name_by_port_spec (l : List (String × String × String))
    (port : String) :
    find_name_by_port (l.map okCand) port
      = match l.filter (fun t => strContains t.2.1 port) with
        | [] => Except.error Ev3Error.NotFound
        | m :: _ => Except.ok m.1 := by
  induction l with
  | nil => rfl
  | cons c rest ih =>
    cases h : strContains c.2.1 port with
    | true => simp [find_name_by_port, okCand, List.filter_cons, h]
    | false => simp [find_name_by_port, okCand, List.filter_cons, h, ih]

/-- Over candidates whose reads all succeed, find_name_by_port_and_driver
returns the name of the first candidate whose address contains the port
address and whose driver name equals the query, and NotFound when there is
none. -/
theorem find_name_by_port_and_driver_spec (l : List (String × String × String))
    (port driver : String) :
    find_name_by_port_and_driver (l.map okCand) port driver
      = match l.filter (fun t => strContains t.2.1 port && (t.2.2 == driver)) with
        | [] => Except.error Ev3Error.NotFound
        | m :: _ => Except.ok m.1 := by
  induction l with
  | nil => rfl
  | cons c rest ih =>
    cases h : strContains c.2.1 port with
    | true =>
      cases h2 : (c.2.2 == driver) with
      | true => simp [find_name_by_port_and_driver, okCand, List.filter_cons, h, h2]
      | false => simp [find_name_by_port_and_driver, okCand, List.filter_cons, h, h2, ih]
    | false => simp [find_name_by_port_and_driver, okCand, List.filter_cons, h, ih]

/-- Over candidates whose reads all succeed, find_names_by_driver collects the
names of exactly the candidates whose driver name equals the query, in
order. -/
theorem find_names_by_driver_spec (l : List (String × String × String))
    (driver : String) :
    find_names_by_driver (l.map okCand) driver
      = Except.ok ((l.filter (fun t => t.2.2 == driver)).map (fun t => t.1)) := by
  induction l with
  | nil => rfl
  | cons c rest ih =>
    cases h : (c.2.2 == driver) with
    | true => simp [find_names_by_driver, okCand, List.filter_cons, h, ih]
    | false => simp [find_names_by_driver, okCand, List.filter_cons, h, ih]

/-- C1: over a class directory whose candidate reads succeed, when at least
two candidates' address attributes contain the port address as a substring,
find_name_by_port returns the first such candidate in enumeration order (in
particular it does not return MultipleMatches), and when no candidate matches
it returns NotFound. -/
theorem claim_C1 (l : List (String × String × String)) (port : String) :
    (l.filter (fun t => strContains t.2.1 port) = [] →
      find_name_by_port (l.map okCand) port = Except.error Ev3Error.NotFound)
    ∧ (∀ m ms, l.filter (fun t => strContains t.2.1 port) = m :: ms →
        1 ≤ ms.length →
        find_name_by_port (l.map okCand) port = Except.ok m.1) := by
  refine ⟨fun h => ?_, fun m ms h _ => ?_⟩
  · rw [find_name_by_port_spec, h]
  · rw [find_name_by_port_spec, h]

/-- Witness for C1: two matching candidates give the first one; no matching
candidate gives NotFound. -/
theorem claim_C1_witness :
    find_name_by_port
        ([("motor0", "ev3-ports:outA", "da"), ("motor1", "ev3-ports:outA", "db")].map okCand)
        "outA" = Except.ok "motor0"
    ∧ find_name_by_port ([("motor0", "ev3-ports:outA", "da")].map okCand) "in1"
        = Except.error Ev3Error.NotFound :=
  ⟨(claim_C1 [("motor0", "ev3-ports:outA", "da"), ("motor1", "ev3-ports:outA", "db")]
      "outA").2 ("motor0", "ev3-ports:outA", "da") [("motor1", "ev3-ports:outA", "db")]
      (by decide) (by decide),
   (claim_C1 [("motor0", "ev3-ports:outA", "da")] "in1").1 (by decide)⟩

/-- C2: over a class directory whose candidate reads succeed,
find_name_by_driver returns NotFound when no candidate's driver name equals
the query, the single matching candidate's name when exactly one does, and
MultipleMatches when two or more do; matching is exact equality of the
driver-name strings (character data compared pointwise). -/
theorem claim_C2 (l : List (String × String × String)) (driver : String) :
    (find_name_by_driver (l.map okCand) driver
      = match l.filter (fun t => t.2.2 == driver) with
        | [] => Except.error Ev3Error.NotFound
        | [m] => Except.ok m.1
        | _ :: _ :: _ => Except.error Ev3Error.MultipleMatches)
    ∧ (∀ s : String, (s == driver) = true ↔ s.data = driver.data) := by
  constructor
  · have h := find_names_by_driver_spec l driver
    cases hf : l.filter (fun t => t.2.2 == driver) with
    | nil => simp [find_name_by_driver, h, hf]
    | cons m ms =>
      cases ms with
      | nil => simp [find_name_by_driver, h, hf]
      | cons m2 ms2 => simp [find_name_by_driver, h, hf]
  · intro s
    constructor
    · intro h
      have hs : s = driver := by simpa using h
      rw [hs]
    · intro h
      have hs : s = driver := by
        cases s
        cases driver
        exact congrArg String.mk h
      simp [hs]

/-- Witness for C2: one exact driver match returns that name, and the
equality test accepts an equal string. -/
theorem claim_C2_witness :
    find_name_by_driver
        ([("motor0", "a", "lego-ev3-l-motor"), ("motor1", "b", "lego-ev3-m-motor")].map okCand)
        "lego-ev3-m-motor" = Except.ok "motor1"
    ∧ ("abc" : String).data = ("abc" : String).data :=
  ⟨(claim_C2 [("motor0", "a", "lego-ev3-l-motor"), ("motor1", "b", "lego-ev3-m-motor")]
      "lego-ev3-m-motor").1.trans (by rfl),
   ((claim_C2 [] "abc").2 "abc").mp (by decide)⟩

/-- C3: over a class directory whose candidate reads succeed, discovery by
port accepts a candidate exactly when the port address occurs as a substring
of the candidate's address attribute (not string equality), and
find_name_by_port_and_driver additionally requires the candidate's driver
name to equal the given driver name exactly; both return the first accepted
candidate and NotFound when none is accepted. -/
theorem claim_C3 (l : List (String × String × String)) (port driver : String) :
    (find_name_by_port_and_driver (l.map okCand) port driver
      = match l.filter (fun t => strContains t.2.1 port && (t.2.2 == driver)) with
        | [] => Except.error Ev3Error.NotFound
        | m :: _ => Except.ok m.1)
    ∧ (find_name_by_port (l.map okCand) port
      = match l.filter (fun t => strContains t.2.1 port) with
        | [] => Except.error Ev3Error.NotFound
        | m :: _ => Except.ok m.1)
    ∧ (∀ addr : String, strContains addr port = true ↔
        ∃ pre post, addr.data = pre ++ port.data ++ post)
    ∧ (∀ drv : String, (drv == driver) = true ↔ drv = driver) := by
  refine ⟨find_name_by_port_and_driver_spec l port driver,
    find_name_by_port_spec l port,
    fun addr => strContains_iff addr port,
    fun drv => ?_⟩
  exact beq_iff_eq

/-- Witness for C3: a composite address accepts its port by substring (the
strings are not equal), and the combined search requires the exact driver. -/
theorem claim_C3_witness :
    strContains "ev3-ports:in1" "in1" = true
    ∧ (∃ pre post, ("ev3-ports:in1" : String).data = pre ++ ("in1" : String).data ++ post)
    ∧ find_name_by_port_and_driver
        ([("s0", "ev3-ports:in1", "lego-ev3-touch"), ("s1", "ev3-ports:in1", "lego-ev3-color")].map okCand)
        "in1" "lego-ev3-color" = Except.ok "s1" :=
  ⟨((claim_C3 [] "in1" "x").2.2.1 "ev3-ports:in1").mpr
      ⟨[Char.ofNat 101, Char.ofNat 118, Char.ofNat 51, Char.ofNat 45, Char.ofNat 112,
        Char.ofNat 111, Char.ofNat 114, Char.ofNat 116, Char.ofNat 115, Char.ofNat 58],
        [], by decide⟩,
   ((claim_C3 [] "in1" "x").2.2.1 "ev3-ports:in1").mp (by decide),
   (claim_C3 [("s0", "ev3-ports:in1", "lego-ev3-touch"), ("s1", "ev3-ports:in1", "lego-ev3-color")]
      "in1" "lego-ev3-color").1.trans (by rfl)⟩

/-- A cache hit returns the cached handle, performs no construction and
leaves the Driver unchanged. -/
theorem get_attribute_core_hit (d : Driver) (fs : FsEnv) (n : String) (a : Attribute)
    (h : d.attributes.lookup n = some a) :
    d.get_attribute_core fs n = (false, some a, d) := by
  simp [Driver.get_attribute_core, h]

/-- A cache miss with successful construction inserts the new handle and
returns it. -/
theorem get_attribute_core_miss_ok (d : Driver) (fs : FsEnv) (n : String) (v : Attribute)
    (h : d.attributes.lookup n = none)
    (hA : Attribute.new fs d.class_name d.name n = Except.ok v) :
    d.get_attribute_core fs n
      = (true, some v, ⟨d.class_name, d.name, (n, v) :: d.attributes⟩) := by
  simp [Driver.get_attribute_core, h, hA, List.lookup]

/-- A cache miss with failed construction leaves the Driver unchanged and the
final lookup misses (the expect panic, modelled as none). -/
theorem get_attribute_core_miss_err (d : Driver) (fs : FsEnv) (n : String) (e : Ev3Error)
    (h : d.attributes.lookup n = none)
    (hA : Attribute.new fs d.class_name d.name n = Except.error e) :
    d.get_attribute_core fs n = (true, none, d) := by
  simp [Driver.get_attribute_core, h, hA]

/-- C7: when get_attribute succeeds, a second call on the resulting state
returns the same handle (hence the same underlying attribute file path)
without invoking Attribute::new again; the class name and device name are
unchanged and every existing cache entry survives (the cache only grows). -/
theorem claim_C7 (fs : FsEnv) (d : Driver) (n : String) (a1 : Attribute)
    (h : (d.get_attribute fs n).1 = some a1) :
    (((d.get_attribute fs n).2).get_attribute fs n).1 = some a1
    ∧ (∀ a2, (((d.get_attribute fs n).2).get_attribute fs n).1 = some a2 →
        a2.path = a1.path)
    ∧ (((d.get_attribute fs n).2).get_attribute_core fs n).1 = false
    ∧ ((d.get_attribute fs n).2).class_name = d.class_name
    ∧ ((d.get_attribute fs n).2).name = d.name
    ∧ (∀ k v, d.attributes.lookup k = some v →
        ((d.get_attribute fs n).2).attributes.lookup k = some v) := by
  rcases hc : d.attributes.lookup n with _ | a
  · rcases hA : Attribute.new fs d.class_name d.name n with e | v
    · have hcore := get_attribute_core_miss_err d fs n e hc hA
      simp [Driver.get_attribute, hcore] at h
    · have hcore := get_attribute_core_miss_ok d fs n v hc hA
      have hget : d.get_attribute fs n
          = (some v, ⟨d.class_name, d.name, (n, v) :: d.attributes⟩) := by
        simp [Driver.get_attribute, hcore]
      have hv : v = a1 := by
        rw [hget] at h
        exact Option.some.inj h
      subst hv
      rw [hget]
      have hlook :
          (Driver.mk d.class_name d.name ((n, v) :: d.attributes)).attributes.lookup n
            = some v := by
        simp [List.lookup]
      have hcore2 :=
        get_attribute_core_hit ⟨d.class_name, d.name, (n, v) :: d.attributes⟩ fs n v hlook
      refine ⟨?_, ?_, ?_, rfl, rfl, ?_⟩
      · simp [Driver.get_attribute, hcore2]
      · intro a2 h2
        simp [Driver.get_attribute, hcore2] at h2
        rw [h2]
      · simp [hcore2]
      · intro k v' hk
        cases hkn : (k == n) with
        | true =>
          have hk' : k = n := by simpa using hkn
          subst hk'
          simp [hc] at hk
        | false =>
          simpa [List.lookup, hkn] using hk
  · have hcore := get_attribute_core_hit d fs n a hc
    have hget : d.get_attribute fs n = (some a, d) := by
      simp [Driver.get_attribute, hcore]
    have ha : a = a1 := by
      rw [hget] at h
      exact Option.some.inj h
    subst ha
    rw [hget]
    refine ⟨?_, ?_, ?_, rfl, rfl, fun k v hk => hk⟩
    · simp [Driver.get_attribute, hcore]
    · intro a2 h2
      simp [Driver.get_attribute, hcore] at h2
      rw [h2]
    · simp [hcore]

/-- Witness for C7: a successful call followed by a second call on the
updated state returns the same handle. -/
theorem claim_C7_witness :
    ((Driver.new "tacho-motor" "motor0").get_attribute (fun _ _ _ => true) "address").1
        = some ⟨"tacho-motor", "motor0", "address"⟩
    ∧ ((((Driver.new "tacho-motor" "motor0").get_attribute (fun _ _ _ => true)
          "address").2).get_attribute (fun _ _ _ => true) "address").1
        = some ⟨"tacho-motor", "motor0", "address"⟩ :=
  ⟨rfl,
   (claim_C7 (fun _ _ _ => true) (Driver.new "tacho-motor" "motor0") "address"
      ⟨"tacho-motor", "motor0", "address"⟩ rfl).1⟩

/-- C8: cloning a Driver keeps the class name and device name, empties the
attribute cache, and a get_attribute on the clone always invokes
Attribute::new afresh, its result determined by construction alone. -/
theorem claim_C8 (d : Driver) (fs : FsEnv) (n : String) :
    d.clone.class_name = d.class_name
    ∧ d.clone.name = d.name
    ∧ d.clone.attributes = []
    ∧ (d.clone.get_attribute_core fs n).1 = true
    ∧ (d.clone.get_attribute fs n).1
        = (Attribute.new fs d.class_name d.name n).toOption := by
  refine ⟨rfl, rfl, rfl, ?_, ?_⟩
  · rcases hA : Attribute.new fs d.class_name d.name n with e | v
    · simp [get_attribute_core_miss_err d.clone fs n e rfl hA]
    · simp [get_attribute_core_miss_ok d.clone fs n v rfl hA]
  · rcases hA : Attribute.new fs d.class_name d.name n with e | v
    · simp [Driver.get_attribute, get_attribute_core_miss_err d.clone fs n e rfl hA, hA,
        Except.toOption]
    · simp [Driver.get_attribute, get_attribute_core_miss_ok d.clone fs n v rfl hA, hA,
        Except.toOption]

/-- C9: for an uncached name whose construction fails, get_attribute leaves
the Driver unchanged and the final lookup misses (the fatal expect branch,
modelled as none); when construction succeeds the call always yields a
handle, so the fatal branch is unreachable. -/
theorem claim_C9 (fs : FsEnv) (d : Driver) (n : String) :
    (d.attributes.lookup n = none → fs d.class_name d.name n = false →
      d.get_attribute fs n = (none, d))
    ∧ (fs d.class_name d.name n = true →
      ((d.get_attribute fs n).1).isSome = true) := by
  constructor
  · intro h1 h2
    have hA : Attribute.new fs d.class_name d.name n
        = Except.error (Ev3Error.InternalError "Attribute does not exist") := by
      simp [Attribute.new, h2]
    simp [Driver.get_attribute, get_attribute_core_miss_err d fs n _ h1 hA]
  · intro h2
    rcases hc : d.attributes.lookup n with _ | a
    · have hA : Attribute.new fs d.class_name d.name n
          = Except.ok ⟨d.class_name, d.name, n⟩ := by
        simp [Attribute.new, h2]
      simp [Driver.get_attribute, get_attribute_core_miss_ok d fs n _ hc hA]
    · simp [Driver.get_attribute, get_attribute_core_hit d fs n a hc]

/-- Witness for C9: a failing construction leaves the Driver unchanged with a
missing result, and a succeeding construction yields a handle. -/
theorem claim_C9_witness :
    (Driver.new "tacho-motor" "motor0").get_attribute (fun _ _ _ => false) "speed"
        = (none, Driver.new "tacho-motor" "motor0")
    ∧ (((Driver.new "tacho-motor" "motor0").get_attribute
          (fun _ _ _ => true) "speed").1).isSome = true :=
  ⟨(claim_C9 (fun _ _ _ => false) (Driver.new "tacho-motor" "motor0") "speed").1 rfl rfl,
   (claim_C9 (fun _ _ _ => true) (Driver.new "tacho-motor" "motor0") "speed").2 rfl⟩

/-- C4: when cond() already holds on entry, wait returns true at once with a
trace holding that single cond evaluation: no change-notification call and no
clock access occur, whatever the timeout. -/
theorem claim_C4 (fd : Int) (env : WaitEnv) (timeout : Option Nat) (fuel : Nat)
    (h : env.cond 0 = true) :
    wait fd env timeout fuel = (some true, [WEvent.condCall true])
    ∧ epollTimeouts (wait fd env timeout fuel).2 = []
    ∧ clockReads (wait fd env timeout fuel).2 = 0 := by
  have hw : wait fd env timeout fuel = (some true, [WEvent.condCall true]) := by
    simp [wait, h]
  refine ⟨hw, ?_, ?_⟩
  · rw [hw]
    rfl
  · rw [hw]
    rfl

/-- Witness for C4: a condition true on entry returns immediately. -/
theorem claim_C4_witness :
    wait 5 ⟨fun _ => true, fun _ => 0⟩ (some 1000000) 3
      = (some true, [WEvent.condCall true]) :=
  (claim_C4 5 ⟨fun _ => true, fun _ => 0⟩ (some 1000000) 3 rfl).1

/-- C5: at any iteration of a run with a finite total timeout, when the
elapsed time measured after the change-notification wakeup has reached the
total, the loop returns false at once, with no cond evaluation in its trace,
whatever cond would have returned. -/
theorem claim_C5 (fd : Int) (env : WaitEnv) (d : Nat) (i fuel : Nat) (t : Option Nat)
    (h : d ≤ env.elapsed i) :
    (waitLoop fd env (some d) (fuel + 1) i t).1 = some false
    ∧ condResults (waitLoop fd env (some d) (fuel + 1) i t).2 = [] := by
  have hw : waitLoop fd env (some d) (fuel + 1) i t
      = (some false,
         [WEvent.epollCall fd (match t with
            | some duration => wrap32 (durMillis duration)
            | none => -1), WEvent.clockRead]) := by
    simp [waitLoop, h]
  rw [hw]
  exact ⟨rfl, rfl⟩

/-- Witness for C5: with the timeout expired and a condition that would
return true, the loop still returns false and never evaluates it. -/
theorem claim_C5_witness :
    (waitLoop 0 ⟨fun _ => true, fun _ => 5⟩ (some 3) 1 0 (some 3)).1 = some false
    ∧ condResults (waitLoop 0 ⟨fun _ => true, fun _ => 5⟩ (some 3) 1 0 (some 3)).2
        = [] :=
  claim_C5 0 ⟨fun _ => true, fun _ => 5⟩ 3 0 0 (some 3) (by decide)

/-- A run of the loop with no total timeout never yields false, passes -1 to
every change-notification call, and terminates only by seeing cond() return
true. -/
theorem waitLoop_none_spec (fd : Int) (env : WaitEnv) :
    ∀ fuel i,
      ((waitLoop fd env none fuel i none).1 ≠ some false)
      ∧ (∀ x ∈ epollTimeouts (waitLoop fd env none fuel i none).2, x = -1)
      ∧ ((waitLoop fd env none fuel i none).1 = some true →
          ∃ k, env.cond k = true) := by
  intro fuel
  induction fuel with
  | zero =>
    intro i
    refine ⟨by simp [waitLoop], by simp [waitLoop, epollTimeouts], by simp [waitLoop]⟩
  | succ m ih =>
    intro i
    cases hc : env.cond (i + 1) with
    | true =>
      have hw : waitLoop fd env none (m + 1) i none
          = (some true, [WEvent.epollCall fd (-1), WEvent.condCall true]) := by
        simp [waitLoop, hc]
      refine ⟨by rw [hw]; simp, ?_, fun _ => ⟨i + 1, hc⟩⟩
      rw [hw]
      intro x hx
      simpa [epollTimeouts] using hx
    | false =>
      have hw : waitLoop fd env none (m + 1) i none
          = ((waitLoop fd env none m (i + 1) none).1,
             WEvent.epollCall fd (-1) :: WEvent.condCall false ::
               (waitLoop fd env none m (i + 1) none).2) := by
        simp [waitLoop, hc]
      obtain ⟨ih1, ih2, ih3⟩ := ih (i + 1)
      refine ⟨by rw [hw]; exact ih1, ?_, by rw [hw]; exact ih3⟩
      rw [hw]
      intro x hx
      simp only [epollTimeouts, List.mem_cons] at hx
      rcases hx with hx | hx
      · exact hx
      · exact ih2 x hx

/-- A run of wait with no total timeout passes -1 to every
change-notification call. -/
theorem wait_none_epoll (fd : Int) (env : WaitEnv) (fuel : Nat) :
    ∀ x ∈ epollTimeouts (wait fd env none fuel).2, x = -1 := by
  cases hc : env.cond 0 with
  | true =>
    have hw : wait fd env none fuel = (some true, [WEvent.condCall true]) := by
      simp [wait, hc]
    rw [hw]
    intro x hx
    simp [epollTimeouts] at hx
  | false =>
    have hw : wait fd env none fuel
        = ((waitLoop fd env none fuel 0 none).1,
           WEvent.condCall false :: WEvent.clockRead ::
             (waitLoop fd env none fuel 0 none).2) := by
      simp [wait, hc]
    rw [hw]
    intro x hx
    simp only [epollTimeouts] at hx
    exact (waitLoop_none_spec fd env fuel 0).2.1 x hx

/-- C10: with no timeout, wait never returns false, every inner
change-notification call is passed the indefinite timeout -1, and a
terminating run exits only because some evaluation of cond() returned
true. -/
theorem claim_C10 (fd : Int) (env : WaitEnv) (fuel : Nat) :
    (wait fd env none fuel).1 ≠ some false
    ∧ (∀ x ∈ epollTimeouts (wait fd env none fuel).2, x = -1)
    ∧ ((wait fd env none fuel).1 = some true → ∃ k, env.cond k = true) := by
  cases hc : env.cond 0 with
  | true =>
    have hw : wait fd env none fuel = (some true, [WEvent.condCall true]) := by
      simp [wait, hc]
    refine ⟨by rw [hw]; simp, ?_, fun _ => ⟨0, hc⟩⟩
    rw [hw]
    intro x hx
    simp [epollTimeouts] at hx
  | false =>
    have hw : wait fd env none fuel
        = ((waitLoop fd env none fuel 0 none).1,
           WEvent.condCall false :: WEvent.clockRead ::
             (waitLoop fd env none fuel 0 none).2) := by
      simp [wait, hc]
    obtain ⟨h1, _, h3⟩ := waitLoop_none_spec fd env fuel 0
    exact ⟨by rw [hw]; exact h1, wait_none_epoll fd env fuel, by rw [hw]; exact h3⟩

/-- Witness for C10: a run that terminates because cond flips at its second
evaluation returned true, and its single inner call was passed -1. -/
theorem claim_C10_witness :
    (wait 0 ⟨fun k => k == 1, fun _ => 0⟩ none 1).1 ≠ some false
    ∧ ((-1 : Int) = -1)
    ∧ (∃ k, WaitEnv.cond ⟨fun k => k == 1, fun _ => 0⟩ k = true) :=
  ⟨(claim_C10 0 ⟨fun k => k == 1, fun _ => 0⟩ 1).1,
   (claim_C10 0 ⟨fun k => k == 1, fun _ => 0⟩ 1).2.1 (-1) (by decide),
   (claim_C10 0 ⟨fun k => k == 1, fun _ => 0⟩ 1).2.2 (by rfl)⟩

/-- In a run with total timeout d started at iteration i with the loop
variable t holding the remaining budget for i, the change-notification
timeouts are, in order, the i32-cast whole-millisecond values of the
successive remaining budgets. -/
theorem waitLoop_some_timeouts (fd : Int) (env : WaitEnv) (d : Nat) :
    ∀ fuel i, ∃ len,
      epollTimeouts (waitLoop fd env (some d) fuel i (some (remBudget env d i))).2
        = (List.range len).map
            (fun j => wrap32 (durMillis (remBudget env d (i + j)))) := by
  intro fuel
  induction fuel with
  | zero => exact fun i => ⟨0, by simp [waitLoop, epollTimeouts]⟩
  | succ m ih =>
    intro i
    by_cases he : d ≤ env.elapsed i
    · refine ⟨1, ?_⟩
      have hw : waitLoop fd env (some d) (m + 1) i (some (remBudget env d i))
          = (some false,
             [WEvent.epollCall fd (wrap32 (durMillis (remBudget env d i))),
              WEvent.clockRead]) := by
        simp [waitLoop, he]
      rw [hw]
      simp [epollTimeouts, List.range_succ]
    · cases hc : env.cond (i + 1) with
      | true =>
        refine ⟨1, ?_⟩
        have hw : waitLoop fd env (some d) (m + 1) i (some (remBudget env d i))
            = (some true,
               [WEvent.epollCall fd (wrap32 (durMillis (remBudget env d i))),
                WEvent.clockRead, WEvent.condCall true]) := by
          simp [waitLoop, he, hc]
        rw [hw]
        simp [epollTimeouts, List.range_succ]
      | false =>
        obtain ⟨len, hlen⟩ := ih (i + 1)
        have hrb : remBudget env d (i + 1) = d - env.elapsed i := rfl
        rw [hrb] at hlen
        have hw : waitLoop fd env (some d) (m + 1) i (some (remBudget env d i))
            = ((waitLoop fd env (some d) m (i + 1) (some (d - env.elapsed i))).1,
               WEvent.epollCall fd (wrap32 (durMillis (remBudget env d i)))
                 :: WEvent.clockRead :: WEvent.condCall false ::
                 (waitLoop fd env (some d) m (i + 1) (some (d - env.elapsed i))).2) := by
          simp [waitLoop, he, hc]
        refine ⟨len + 1, ?_⟩
        rw [hw]
        show wrap32 (durMillis (remBudget env d i))
            :: epollTimeouts (waitLoop fd env (some d) m (i + 1)
                (some (d - env.elapsed i))).2
          = _
        rw [hlen, List.range_succ_eq_map, List.map_cons, List.map_map]
        have hfun : ((fun j => wrap32 (durMillis (remBudget env d (i + j)))) ∘ Nat.succ)
            = (fun j => wrap32 (durMillis (remBudget env d (i + 1 + j)))) := by
          funext j
          have hj : i + Nat.succ j = i + 1 + j := by omega
          simp [Function.comp, hj]
        rw [hfun]
        simp

/-- C6 as stated fails on the i32 cast: with a total timeout of 2^31
milliseconds and no elapsed time, the first change-notification call is
passed -2147483648, not the remaining budget of 2147483648 whole
milliseconds. -/
theorem claim_C6_cex :
    epollTimeouts
        (wait 0 ⟨fun _ => false, fun _ => 0⟩ (some 2147483648000000) 1).2
      = [(-2147483648 : Int)]
    ∧ durMillis 2147483648000000 = 2147483648
    ∧ ((-2147483648 : Int) ≠ (2147483648 : Int)) := by
  refine ⟨by rfl, by rfl, by decide⟩

/-- C6 (amended): every change-notification call of a run with total timeout
d is passed the remaining budget (d at the first iteration, d minus the
last measured elapsed time afterwards) converted to whole milliseconds
rounded down and then reduced to a 32-bit two's-complement value by the i32
cast — equal to the plain millisecond count whenever that count is below
2^31 — and is passed the indefinite timeout -1 when the caller supplied no
timeout. -/
theorem claim_C6 (fd : Int) (env : WaitEnv) (d : Nat) (fuel : Nat) :
    (∀ j t, (epollTimeouts (wait fd env (some d) fuel).2).get? j = some t →
      t = wrap32 (durMillis (remBudget env d j)))
    ∧ (∀ m : Nat, m < 2147483648 → wrap32 m = (m : Int))
    ∧ (∀ j t, (epollTimeouts (wait fd env none fuel).2).get? j = some t →
      t = -1) := by
  refine ⟨?_, ?_, ?_⟩
  · intro j t h
    cases hc : env.cond 0 with
    | true =>
      rw [show wait fd env (some d) fuel = (some true, [WEvent.condCall true]) from
        by simp [wait, hc]] at h
      simp [epollTimeouts] at h
    | false =>
      have hw : wait fd env (some d) fuel
          = ((waitLoop fd env (some d) fuel 0 (some d)).1,
             WEvent.condCall false :: WEvent.clockRead ::
               (waitLoop fd env (some d) fuel 0 (some d)).2) := by
        simp [wait, hc]
      rw [hw] at h
      obtain ⟨len, hlen⟩ := waitLoop_some_timeouts fd env d fuel 0
      have h0 : remBudget env d 0 = d := rfl
      rw [h0] at hlen
      have h' : ((List.range len).map
          (fun j => wrap32 (durMillis (remBudget env d (0 + j))))).get? j
            = some t := by
        rw [← hlen]
        exact h
      by_cases hjl : j < len
      · rw [List.get?_map, List.get?_range hjl] at h'
        have ht := Option.some.inj h'
        rw [← ht]
        simp
      · have hnone : (List.range len).get? j = none := by
          rw [List.get?_eq_none]
          simpa using Nat.le_of_not_lt hjl
        rw [List.get?_map, hnone] at h'
        simp at h'
  · intro m hm
    have h32 : m < 4294967296 := lt_trans hm (by norm_num)
    simp [wrap32, Nat.mod_eq_of_lt h32, hm]
  · intro j t h
    exact wait_none_epoll fd env fuel t (List.get?_mem h)

/-- Witness for C6: with a 2000 ms total timeout and 500 ms elapsed at the
first wakeup, the second change-notification call is passed 1500; small
millisecond counts are unchanged by the cast; with no timeout the call is
passed -1. -/
theorem claim_C6_witness :
    ((1500 : Int)
      = wrap32 (durMillis (remBudget ⟨fun _ => false, fun _ => 500000000⟩ 2000000000 1)))
    ∧ wrap32 1000 = ((1000 : Nat) : Int)
    ∧ ((-1 : Int) = -1) :=
  ⟨(claim_C6 0 ⟨fun _ => false, fun _ => 500000000⟩ 2000000000 2).1 1 1500 (by rfl),
   (claim_C6 0 ⟨fun _ => false, fun _ => 500000000⟩ 2000000000 2).2.1 1000 (by decide),
   (claim_C6 0 ⟨fun _ => false, fun _ => 500000000⟩ 2000000000 1).2.2 0 (-1) (by rfl)⟩

end Ev3Spec
